import Mathlib

/-!
Shallow embedding of the resource-pooled RSS fetch-and-parse pipeline of
the rss-reader package, together with proofs of its specified properties.

Conventions of the embedding:
- JavaScript numbers that are used as counters, sizes, statuses or
  millisecond delays are modelled as Nat.
- A Puppeteer Browser handle is modelled as a Nat identifier; handle
  equality comparison in the source (Set membership, indexOf) becomes Nat
  equality.
- External collaborators (the Puppeteer engine, the xml2js parser, the
  cheerio HTML parser) are modelled as explicit environment records of
  pure functions; the code under verification never inspects them beyond
  the calls it makes in the source.
- Thrown exceptions become Except values; a try/finally whose body threw
  and whose finalizer also throws propagates the finalizer error, as in
  JavaScript.
- Async methods are modelled as pure state-passing functions; the
  embedding is the single-caller sequential semantics, and an acquire that
  would suspend forever resolves through its 60-second timeout rejection.
-/

/-- Browser handles are identified by Nat; the source compares them by
object identity (Set membership and Array.indexOf). -/
abbrev Browser := Nat

/-- Error taxonomy of src/errors/RssReaderErrors.ts. The cause field of
the TypeScript classes is dropped; the carried strings are kept. The
generic constructor models a plain JavaScript Error (used by the
RetryHandler maxAttempts guard). -/
inductive RssError where
  | feedFetch (message : String) (feedUrl : String)
  | invalidFeed (message : String) (feedUrl : String)
  | parseFailure (message : String) (feedUrl : Option String) (itemTitle : Option String)
  | browser (message : String) (operation : String)
  | generic (message : String)
deriving DecidableEq, Repr

/-- Recognizer for the FeedFetchError class. -/
def RssError.isFeedFetch : RssError → Bool
  | .feedFetch _ _ => true
  | _ => false

/-- Message carried by an error, as read by error.message in the source. -/
def RssError.message : RssError → String
  | .feedFetch m _ => m
  | .invalidFeed m _ => m
  | .parseFailure m _ _ => m
  | .browser m _ => m
  | .generic m => m

/-- Normalized RSS item, the RssItem interface of src/types. The
publishedAt Date is modelled as an integer timestamp; metadata is dropped
since no verified property inspects it. -/
structure RssItem where
  title : String
  link : String
  publishedAt : Int
  links : List String
  itemId : Option String
  rawContent : Option String
deriving DecidableEq, Repr

/-!
Generic keep-first-occurrence deduplication. The source contains two
loops with this semantics: RssReader.deduplicateItems (seen Set over
item.link) and LinkExtractor.extractLinks (seen Set over the link
itself). Both are translations of the same pattern, so the loop is
defined once, parameterized by the key function, and instantiated twice.
-/

/-- Loop of the source deduplication: walk the list, keep an element when
its key has not been seen, and record the key. The seen collection models
the JavaScript Set; only membership is ever queried, so a list suffices. -/
def dedupFirstByAux {α β : Type} [DecidableEq β] (key : α → β) (seen : List β) :
    List α → List α
  | [] => []
  | x :: rest =>
    if key x ∈ seen then dedupFirstByAux key seen rest
    else x :: dedupFirstByAux key (key x :: seen) rest

/-- Specification-side formulation of keep-first-occurrence
deduplication: keep the head and drop every later element with the same
key, recursively. This definition follows the words of the spec and is
proved equal to the loop translated from the source. -/
def keepFirstBy {α β : Type} [DecidableEq β] (key : α → β) : List α → List α
  | [] => []
  | x :: rest => x :: keepFirstBy key (rest.filter (fun y => key y ≠ key x))
termination_by l => l.length
decreasing_by
  simp only [List.length_cons]
  exact Nat.lt_succ_of_le (List.length_filter_le _ _)

/-- RssReader.deduplicateItems: deduplicate items by link URL, keeping
the first occurrence (src/reader/RssReader.ts lines 384-396). -/
def deduplicateItems (items : List RssItem) : List RssItem :=
  dedupFirstByAux RssItem.link [] items

/-!
RssReader.parseItems (src/reader/RssReader.ts lines 340-377): sequential
per-entry assembly and validation, collecting failures. The per-entry
step (itemParser.parseItem followed by itemValidator.validate, with
non-ParseError exceptions wrapped into ParseError by the catch block) is
the parseOne parameter; its error type is abstract.
-/

/-- Loop body of parseItems: items and errors accumulate in order. -/
def parseItemsAux {ρ ι ε : Type} (parseOne : ρ → Except ε ι) :
    List ρ → List ι → List ε → List ι × List ε
  | [], items, errs => (items, errs)
  | r :: rest, items, errs =>
    match parseOne r with
    | .ok i => parseItemsAux parseOne rest (items ++ [i]) errs
    | .error e => parseItemsAux parseOne rest items (errs ++ [e])

/-- RssReader.parseItems: parse every raw item, collect failures, and
raise the first collected failure only when no item succeeded. -/
def parseItems {ρ ι ε : Type} (parseOne : ρ → Except ε ι) (rawItems : List ρ) :
    Except ε (List ι) :=
  match parseItemsAux parseOne rawItems [] [] with
  | ([], e :: _) => .error e
  | (items, _) => .ok items

/-!
RetryHandler (src/utils/RetryHandler.ts): retry with exponential backoff.
The attempt loop is unrolled by the number of remaining attempts; the
accumulated result records the operation outcome, the final state of the
effectful operation, the number of executions of the operation, and the
list of delays slept between failed attempts, in order.
-/

/-- Retry configuration of the RetryHandler constructor. -/
structure RetryOptions where
  initialDelay : Nat
  maxDelay : Nat
  backoffMultiplier : Nat
deriving DecidableEq, Repr

/-- Options used by the RssReader constructor for its RetryHandler. -/
def rssReaderRetryOptions : RetryOptions :=
  { initialDelay := 1000, maxDelay := 30000, backoffMultiplier := 2 }

/-- Attempt loop of executeWithRetry. The first argument of the triple
recursion is the number of remaining attempts; the second is the current
delay; the third is the state threaded through the operation. The fuel
zero case is unreachable because executeWithRetry guards maxAttempts
at least 1; it returns the guard error for totality. -/
def retryGo {σ E A : Type} (op : σ → Except E A × σ) (opts : RetryOptions)
    (invalidErr : E) : Nat → Nat → σ → Except E A × σ × Nat × List Nat
  | 0, _, s => (.error invalidErr, s, 0, [])
  | 1, _, s =>
    let (r, s1) := op s
    (r, s1, 1, [])
  | fuel + 2, d, s =>
    let (r, s1) := op s
    match r with
    | .ok a => (.ok a, s1, 1, [])
    | .error _ =>
      let (r2, s2, c, ds) :=
        retryGo op opts invalidErr (fuel + 1)
          (min (d * opts.backoffMultiplier) opts.maxDelay) s1
      (r2, s2, c + 1, d :: ds)

/-- RetryHandler.executeWithRetry: run the operation up to maxAttempts
times, sleeping the current delay between failed attempts and multiplying
it by the backoff multiplier capped at maxDelay; rethrow the last error
when every attempt fails. The invalidErr argument models the plain Error
thrown by the maxAttempts guard. -/
def executeWithRetry {σ E A : Type} (op : σ → Except E A × σ) (invalidErr : E)
    (maxAttempts : Nat) (opts : RetryOptions) (s : σ) :
    Except E A × σ × Nat × List Nat :=
  if maxAttempts < 1 then (.error invalidErr, s, 0, [])
  else retryGo op opts invalidErr maxAttempts opts.initialDelay s

/-- Sequence of backoff delays slept by executeWithRetry when attempts
keep failing: the first delay is the current delay, and each following
delay is the previous one multiplied by the backoff multiplier and capped
at maxDelay. This is the specification-side description of the delay
schedule. -/
def backoffDelays (opts : RetryOptions) : Nat → Nat → List Nat
  | _, 0 => []
  | d, n + 1 => d :: backoffDelays opts (min (d * opts.backoffMultiplier) opts.maxDelay) n

/-!
TitleCleaner (src/services/TitleCleaner.ts). A RegExp replace-with-empty
application is modelled as a function from the string to Except Unit
String; an error value models a pattern whose application throws. The
whitespace normalization trim and collapse are implemented over character
lists so that concrete titles evaluate by decide.
-/

/-- Whitespace class of the JavaScript regular expression escape used by
the cleaner (the common members; the source uses the regex class). -/
def isJsWhitespace (c : Char) : Bool :=
  c = ' ' || c = '\t' || c = '\n' || c = '\r' || c = '\u000B' || c = '\u000C' || c = '\u00A0'

/-- JavaScript String.prototype.trim on a character list: drop leading
and trailing whitespace. -/
def jsTrimChars (l : List Char) : List Char :=
  ((l.dropWhile isJsWhitespace).reverse.dropWhile isJsWhitespace).reverse

/-- Replace every maximal run of whitespace by a single space, the
semantics of a global replace of one-or-more whitespace with a space. -/
def collapseWhitespace : List Char → List Char
  | [] => []
  | [c] => if isJsWhitespace c then [' '] else [c]
  | c1 :: c2 :: rest =>
    if isJsWhitespace c1 && isJsWhitespace c2 then collapseWhitespace (c2 :: rest)
    else (if isJsWhitespace c1 then ' ' else c1) :: collapseWhitespace (c2 :: rest)

/-- Final normalization step of cleanTitle: trim, then collapse runs of
whitespace to single spaces, as on line 49 of the source. -/
def normalizeWhitespace (s : String) : String :=
  String.mk (collapseWhitespace (jsTrimChars s.toList))

/-- Title cleaning options; each pattern is the replace-with-empty
application of the configured RegExp, which may throw. -/
structure TitleCleanOptions where
  prefixPattern : Option (String → Except Unit String)
  suffixPattern : Option (String → Except Unit String)

/-- TitleCleaner.cleanTitle: empty input yields the empty string; apply
the prefix pattern then the suffix pattern, each swallowing its own
exception and leaving the running value unchanged; then normalize
whitespace. A non-string input also yields the empty string in the
source; it is not representable here. -/
def cleanTitle (title : String) (options : TitleCleanOptions) : String :=
  if title = "" then ""
  else
    let c1 := match options.prefixPattern with
      | none => title
      | some p => match p title with
        | .ok r => r
        | .error _ => title
    let c2 := match options.suffixPattern with
      | none => c1
      | some p => match p c1 with
        | .ok r => r
        | .error _ => c1
    normalizeWhitespace c2

/-- Options record with no patterns configured. -/
def noCleanOptions : TitleCleanOptions := { prefixPattern := none, suffixPattern := none }

/-!
LinkExtractor (src/services/LinkExtractor.ts). The cheerio HTML parser is
an external collaborator: an environment function maps the HTML text to
the list of href attribute values of its anchors in document order (none
per anchor when the attribute is absent), or signals a parser throw.
-/

/-- Anchor enumeration of the external HTML parser: none models a cheerio
throw (caught by the source, which returns an empty array); some gives
the href attribute of each anchor element in order. -/
structure HtmlEnv where
  anchors : String → Option (List (Option String))

/-- String version of the JavaScript trim used on href values. -/
def jsTrim (s : String) : String :=
  String.mk (jsTrimChars s.toList)

/-- Collection loop over the anchors: push the trimmed href of every
anchor whose value is present and non-empty after trimming. -/
def collectHrefs : List (Option String) → List String
  | [] => []
  | none :: rest => collectHrefs rest
  | some h :: rest =>
    if jsTrim h ≠ "" then jsTrim h :: collectHrefs rest
    else collectHrefs rest

/-- LinkExtractor.extractLinks: empty input yields no links; a parser
throw yields no links; otherwise collect the trimmed non-empty hrefs and
remove duplicates keeping the first occurrence. -/
def extractLinks (env : HtmlEnv) (html : String) : List String :=
  if html = "" then []
  else
    match env.anchors html with
    | none => []
    | some hrefs => dedupFirstByAux id [] (collectHrefs hrefs)

/-- Specification-side description of the collected hrefs: the trimmed
value of every present href, empty values discarded. -/
def trimmedHrefs (hrefs : List (Option String)) : List String :=
  hrefs.filterMap (fun h => h.bind (fun v => if jsTrim v = "" then none else some (jsTrim v)))

/-!
BrowserManager (src/browser/BrowserManager.ts). The Puppeteer engine is
an environment: connectivity of a handle, the outcome of a graceful
close, and the outcome of a launch per manager identity (an error value
carries the underlying message). The launching flag guards a concurrent
double launch; under the sequential semantics it is always false between
calls, and the wait loop of a concurrent launch is not exercised.
-/

/-- External Puppeteer engine as seen by one manager and the pool. -/
structure BrowserEnv where
  connected : Browser → Bool
  closeResult : Browser → Except String Unit
  launchResult : Nat → Except String Browser

/-- State of one BrowserManager: its identity (used to address the
engine), the current handle reference, and the launching flag. -/
structure BMState where
  id : Nat
  browser : Option Browser
  launching : Bool
deriving DecidableEq, Repr

/-- Launch path of BrowserManager.launch when no live handle exists: ask
the engine for a new handle; on failure the reference is cleared and a
browser-operation launch error carries the cause message. -/
def bmLaunchFresh (env : BrowserEnv) (m : BMState) : Except RssError Browser × BMState :=
  match env.launchResult m.id with
  | .ok nb => (.ok nb, { m with browser := some nb, launching := false })
  | .error msg =>
    (.error (.browser ("Failed to launch browser: " ++ msg) "launch"),
     { m with browser := none, launching := false })

/-- BrowserManager.launch: return the existing handle when it is live,
otherwise launch a new one. The disconnected callback that clears the
reference on a crash is modelled by querying connectivity here. -/
def bmLaunch (env : BrowserEnv) (m : BMState) : Except RssError Browser × BMState :=
  match m.browser with
  | some b => if env.connected b then (.ok b, m) else bmLaunchFresh env m
  | none => bmLaunchFresh env m

/-- BrowserManager.close: nothing to do without a handle; otherwise close
via the engine. The finally block clears the reference even when the
close failed, and the failure surfaces as a browser-operation close
error. -/
def bmClose (env : BrowserEnv) (m : BMState) : Except RssError Unit × BMState :=
  match m.browser with
  | none => (.ok (), m)
  | some b =>
    match env.closeResult b with
    | .ok _ => (.ok (), { m with browser := none })
    | .error msg =>
      (.error (.browser ("Failed to close browser: " ++ msg) "close"),
       { m with browser := none })

/-- BrowserManager.kill: forced termination; errors are swallowed and the
reference is cleared. The external SIGKILL effect is not represented. -/
def bmKill (m : BMState) : BMState := { m with browser := none }

/-- BrowserManager.restart: close, then launch. The Bool of the result
records whether the relaunch was reached; a close failure propagates
before launch is called. -/
def bmRestart (env : BrowserEnv) (m : BMState) : Except RssError Browser × BMState × Bool :=
  match bmClose env m with
  | (.error e, m1) => (.error e, m1, false)
  | (.ok _, m1) =>
    match bmLaunch env m1 with
    | (r, m2) => (r, m2, true)

/-!
BrowserPool (src/browser/BrowserPool.ts). The pool state mirrors the
fields of the class; the busy Set is a duplicate-free list in insertion
order, and the waiter queue holds caller identifiers in FIFO order in
place of resolve callbacks.
-/

/-- Membership-preserving add of the JavaScript Set. -/
def setAdd (l : List Browser) (b : Browser) : List Browser :=
  if b ∈ l then l else l ++ [b]

/-- Pool statistics snapshot returned by getStats. -/
structure PoolStats where
  total : Nat
  available : Nat
  inUse : Nat
deriving DecidableEq, Repr

/-- State of the BrowserPool. -/
structure PoolState where
  poolSize : Nat
  managers : List BMState
  available : List Browser
  busy : List Browser
  initialized : Bool
  waitQueue : List Nat
deriving DecidableEq, Repr

/-- BrowserPool constructor: pool size below 1 throws a plain Error;
otherwise the pool starts empty and uninitialized. -/
def mkBrowserPool (poolSize : Nat) : Except RssError PoolState :=
  if poolSize < 1 then .error (.generic "Pool size must be at least 1")
  else .ok { poolSize := poolSize, managers := [], available := [], busy := [],
             initialized := false, waitQueue := [] }

/-- State reset of the private cleanup method: the wait queue is cleared,
every manager is closed best effort with a kill fallback (an external
effect), and all tracking collections reset to the uninitialized state. -/
def cleanupState (s : PoolState) : PoolState :=
  { s with managers := [], available := [], busy := [], initialized := false,
           waitQueue := [] }

/-- Sequential launch of all managers, as Promise.all over launch calls:
the first failure rejects the whole initialization. -/
def launchAllAux (env : BrowserEnv) : List BMState → Except RssError (List (Browser × BMState))
  | [] => .ok []
  | m :: rest =>
    match bmLaunch env m with
    | (.ok b, m1) =>
      match launchAllAux env rest with
      | .ok tl => .ok ((b, m1) :: tl)
      | .error e => .error e
    | (.error e, _) => .error e

/-- BrowserPool.initialize: a no-op when already initialized; otherwise
create poolSize managers, launch them all, and on success record every
launched handle as available with an empty busy set. On failure the pool
is cleaned up and a browser-operation initialize error carries the cause
message. -/
def initializePool (env : BrowserEnv) (s : PoolState) : Except RssError Unit × PoolState :=
  if s.initialized then (.ok (), s)
  else
    let ms := (List.range s.poolSize).map
      (fun i => ({ id := i, browser := none, launching := false } : BMState))
    match launchAllAux env ms with
    | .ok pairs =>
      (.ok (), { s with managers := pairs.map Prod.snd, available := pairs.map Prod.fst,
                        busy := [], initialized := true })
    | .error e =>
      (.error (.browser ("Failed to initialize browser pool: " ++ e.message) "initialize"),
       cleanupState s)

/-- BrowserPool.getStats: the current counts. -/
def getStats (s : PoolState) : PoolStats :=
  { total := s.poolSize, available := s.available.length, inUse := s.busy.length }

/-- BrowserPool.isInitialized. -/
def isInitialized (s : PoolState) : Bool := s.initialized

/-- BrowserPool.close: a no-op before initialization, otherwise cleanup. -/
def closePool (s : PoolState) : PoolState :=
  if ¬ s.initialized then s else cleanupState s

/-- Private recoverBrowser: find the manager owning the crashed handle
and restart it. The manager object is mutated even when the restart
fails; on success the new handle replaces the old one in the available
list (first occurrence, as Array.indexOf) and in the busy set. Any
restart failure is wrapped into a browser-operation recover error. -/
def recoverBrowser (env : BrowserEnv) (b : Browser) (s : PoolState) :
    Except RssError Unit × PoolState :=
  match s.managers.find? (fun m => m.browser = some b) with
  | none => (.error (.browser "Cannot recover browser: manager not found" "recover"), s)
  | some m =>
    match bmRestart env m with
    | (.error e, m2, _) =>
      (.error (.browser ("Failed to recover browser: " ++ e.message) "recover"),
       { s with managers := s.managers.replace m m2 })
    | (.ok nb, m2, _) =>
      (.ok (),
       { s with managers := s.managers.replace m m2,
                available := s.available.replace b nb,
                busy := if b ∈ s.busy then setAdd (s.busy.erase b) nb else s.busy })

/-- Outcome of one acquire call: a granted handle, a thrown error, or a
suspension with the caller queued as a waiter. -/
inductive AcquireRes where
  | ok (b : Browser) (s : PoolState)
  | err (e : RssError) (s : PoolState)
  | blocked (s : PoolState)
deriving DecidableEq, Repr

/-- Body of BrowserPool.acquire, recursing on the remaining retry
budget: fail when not initialized or when the budget is exhausted;
otherwise pop the last available handle, recover and retry if it is
disconnected, and record it busy when live. With no available handle the
caller is appended to the waiter queue. -/
def acquireGo (env : BrowserEnv) (callerId : Nat) (maxRetries : Nat) :
    Nat → PoolState → AcquireRes
  | fuel, s =>
    if ¬ s.initialized then
      .err (.browser "Browser pool is not initialized. Call initialize() first." "acquire") s
    else
      match fuel with
      | 0 =>
        .err (.browser ("Failed to acquire browser after " ++ toString maxRetries ++
          " retry attempts") "acquire") s
      | fuel1 + 1 =>
        match s.available.getLast? with
        | some b =>
          let s1 := { s with available := s.available.dropLast }
          if env.connected b then .ok b { s1 with busy := setAdd s1.busy b }
          else
            match recoverBrowser env b s1 with
            | (.error e, s2) => .err e s2
            | (.ok _, s2) => acquireGo env callerId maxRetries fuel1 s2
        | none => .blocked { s with waitQueue := s.waitQueue ++ [callerId] }

/-- BrowserPool.acquire at a given attempt number: the guard comparing
the attempt number against the retry budget corresponds to a remaining
budget of maxRetries minus attempt. -/
def acquireStep (env : BrowserEnv) (callerId : Nat) (maxRetries attempt : Nat)
    (s : PoolState) : AcquireRes :=
  acquireGo env callerId maxRetries (maxRetries - attempt) s

/-- Acquire under the single-caller semantics: a call that would suspend
has no concurrent release to resume it, so its 60-second timeout fires,
the waiter entry is spliced back out of the queue, and the call rejects
with the acquisition timeout error, leaving the state as before. -/
def acquireSC (env : BrowserEnv) (s : PoolState) : Except RssError Browser × PoolState :=
  match acquireStep env 0 3 0 s with
  | .ok b s1 => (.ok b, s1)
  | .err e s1 => (.error e, s1)
  | .blocked _ =>
    (.error (.browser "Browser acquisition timeout after 60 seconds" "acquire"), s)

/-- Outcome of one release call: success (with the waiter that received a
handle, when one was queued) or a thrown error. -/
inductive ReleaseRes where
  | ok (s : PoolState) (handedTo : Option (Nat × Browser))
  | err (e : RssError) (s : PoolState)
deriving DecidableEq, Repr

/-- BrowserPool.release: fail when the pool is not initialized or when
the handle is not recorded busy; otherwise remove it from the busy set
and either hand it to the longest waiting acquirer (recovering first when
it is disconnected, in which case a fresh acquire supplies the waiter) or
append it to the available list when nobody waits. The inner acquire of
the recovery path follows the single-caller semantics. -/
def release (env : BrowserEnv) (b : Browser) (s : PoolState) : ReleaseRes :=
  if ¬ s.initialized then
    .err (.browser "Browser pool is not initialized" "release") s
  else if b ∉ s.busy then
    .err (.browser "Browser is not from this pool or was already released" "release") s
  else
    let s1 := { s with busy := s.busy.erase b }
    match s1.waitQueue with
    | w :: rest =>
      let s2 := { s1 with waitQueue := rest }
      if env.connected b then .ok { s2 with busy := setAdd s2.busy b } (some (w, b))
      else
        match recoverBrowser env b s2 with
        | (.error e, s3) => .err e s3
        | (.ok _, s3) =>
          match acquireSC env s3 with
          | (.ok wb, s4) => .ok s4 (some (w, wb))
          | (.error e, s4) => .err e s4
    | [] => .ok { s1 with available := s1.available ++ [b] } none

/-!
FeedFetcher (src/services/FeedFetcher.ts). Page creation, navigation and
response reading are the external engine; one environment call returns
either a thrown navigation error, a missing response, or a response with
status and body text. The page close of the finally block has no
modelled effect.
-/

/-- Result of driving the engine to a URL through a page. -/
inductive NavOutcome where
  | threw (message : String)
  | noResponse
  | response (status : Nat) (text : String)
deriving DecidableEq, Repr

/-- External navigation capability: browser handle, URL and timeout to
the navigation outcome. -/
structure FetchEnv where
  navigate : Browser → String → Nat → NavOutcome

/-- ASCII lowercasing of one character, the case folding performed by
the case-insensitive regular expression flag on the ASCII pattern. -/
def asciiLower (c : Char) : Char :=
  if 65 ≤ c.toNat ∧ c.toNat ≤ 90 then Char.ofNat (c.toNat + 32) else c

/-- Scheme test of the source, the case-insensitive anchored regular
expression for http or https followed by the scheme separator. -/
def isHttpUrl (url : String) : Bool :=
  ((url.toList.map asciiLower).take 7 == "http://".toList) ||
  ((url.toList.map asciiLower).take 8 == "https://".toList)

/-- FeedFetcher.fetchFeed: reject a missing URL and any scheme other
than http or https before touching the engine; then navigate, require a
response with a status in the 2xx or 3xx range and a non-empty body, and
return the body text. The Bool of the result records whether a
navigation was performed. -/
def fetchFeed (env : FetchEnv) (b : Browser) (feedUrl : String) (timeout : Nat) :
    Except RssError String × Bool :=
  if feedUrl = "" then (.error (.feedFetch "Feed URL is required" feedUrl), false)
  else if ¬ isHttpUrl feedUrl then
    (.error (.feedFetch "Invalid feed URL: must use HTTP or HTTPS protocol" feedUrl), false)
  else
    match env.navigate b feedUrl timeout with
    | .threw msg => (.error (.feedFetch ("Failed to fetch feed: " ++ msg) feedUrl), true)
    | .noResponse =>
      (.error (.feedFetch "Failed to navigate to feed URL: no response received" feedUrl), true)
    | .response status text =>
      if status < 200 ∨ 400 ≤ status then
        (.error (.feedFetch ("Failed to fetch feed: HTTP " ++ toString status) feedUrl), true)
      else if jsTrim text = "" then
        (.error (.feedFetch "Feed content is empty" feedUrl), true)
      else (.ok text, true)

/-!
RssReader.fetchAndParse (src/reader/RssReader.ts lines 127-177). The
xml2js output and the feed-shape projections extractFeedTitle,
extractFeedDescription and extractRawItems are collapsed into one
environment call returning the optional feed title, optional description
and optional entry list of the parsed document; a missing entry list is
the invalid-structure case of extractRawItems.
-/

/-- Projections of the parsed XML document used by the reader. -/
structure ParsedFeed (ρ : Type) where
  title : Option String
  description : Option String
  entries : Option (List ρ)

/-- External XML parser: the text either fails to parse (with a message)
or yields the projected document. -/
structure XmlEnv (ρ : Type) where
  parseXml : String → Except String (ParsedFeed ρ)

/-- The RssFeed value constructed by fetchAndParse. -/
structure RssFeed where
  title : String
  feedUrl : String
  description : Option String
  items : List RssItem
  fetchedAt : Int
deriving DecidableEq, Repr

/-- Observable effects of one fetchAndParse call: pool handles granted,
navigations performed, and executions of the retry-wrapped fetch
operation. -/
structure FetchTrace where
  acquired : Nat
  navigations : Nat
  fetchOps : Nat
deriving DecidableEq, Repr

/-- Trace with no recorded effect. -/
def emptyTrace : FetchTrace := { acquired := 0, navigations := 0, fetchOps := 0 }

/-- The retry-wrapped operation of fetchAndParse: acquire a handle, fetch
through it, and release in a finally block. An acquire failure escapes
before any navigation; a release failure thrown by the finally block
replaces the result of the body. -/
def fetchOp (benv : BrowserEnv) (fenv : FetchEnv) (timeout : Nat) (feedUrl : String) :
    PoolState × FetchTrace → Except RssError String × (PoolState × FetchTrace)
  | (s, tr) =>
    match acquireSC benv s with
    | (.error e, s1) => (.error e, (s1, tr))
    | (.ok b, s1) =>
      let tr1 := { tr with acquired := tr.acquired + 1 }
      let (r, nav) := fetchFeed fenv b feedUrl timeout
      let tr2 := { tr1 with navigations := tr1.navigations + (if nav then 1 else 0) }
      match release benv b s1 with
      | .ok s2 _ => (r, (s2, tr2))
      | .err e s2 => (.error e, (s2, tr2))

/-- RssReader.fetchAndParse: require an initialized pool, fetch the XML
with retry, parse it, extract the title with its placeholder default,
require an entry list, parse the entries collecting failures, and
deduplicate by link into the final feed stamped with the fetch time. -/
def fetchAndParse {ρ : Type} (benv : BrowserEnv) (fenv : FetchEnv) (xenv : XmlEnv ρ)
    (parseOne : ρ → Except RssError RssItem) (retryAttempts timeout : Nat)
    (fetchedAt : Int) (feedUrl : String) (s : PoolState) :
    Except RssError RssFeed × PoolState × FetchTrace :=
  if ¬ s.initialized then
    (.error (.browser "Browser pool not initialized. Call initialize() first."
      "fetchAndParse"), s, emptyTrace)
  else
    match executeWithRetry (fetchOp benv fenv timeout feedUrl)
        (.generic "maxAttempts must be at least 1") retryAttempts
        rssReaderRetryOptions (s, emptyTrace) with
    | (r, (s1, tr), count, _) =>
      let tr1 := { tr with fetchOps := count }
      match r with
      | .error e => (.error e, s1, tr1)
      | .ok xml =>
        match xenv.parseXml xml with
        | .error msg => (.error (.invalidFeed ("Failed to parse XML: " ++ msg) feedUrl), s1, tr1)
        | .ok fd =>
          match fd.entries with
          | none =>
            (.error (.invalidFeed "Feed does not contain valid RSS or Atom structure" feedUrl),
             s1, tr1)
          | some raws =>
            match parseItems parseOne raws with
            | .error e => (.error e, s1, tr1)
            | .ok items =>
              (.ok { title := fd.title.getD "Unknown Feed", feedUrl := feedUrl,
                     description := fd.description, items := deduplicateItems items,
                     fetchedAt := fetchedAt }, s1, tr1)

/-!
Specification-side definitions used by the theorems. These follow the
words of the specification and are compared with the definitions
translated from the source.
-/

/-- Successful items of a batch, in order, as the spec words it: the
failures are dropped and only successes proceed. -/
def successfulItems {ρ ι ε : Type} (parseOne : ρ → Except ε ι) (l : List ρ) : List ι :=
  l.filterMap (fun r => (parseOne r).toOption)

/-- Collected failures of a batch, in order. -/
def collectedErrors {ρ ι ε : Type} (parseOne : ρ → Except ε ι) (l : List ρ) : List ε :=
  l.filterMap (fun r => match parseOne r with | .error e => some e | .ok _ => none)

/-- Operation driven by a fixed sequence of outcomes, one per attempt
number; the state counts the next attempt. Models an arbitrary async
thunk whose runs settle in a fixed order. -/
def attemptOp {E A : Type} (outcomes : Nat → Except E A) : Nat → Except E A × Nat :=
  fun n => (outcomes n, n + 1)

/-- One optional pattern application of the cleaner, with the swallow of
a throwing pattern: the running value is kept as it stood. -/
def applyPattern (p : Option (String → Except Unit String)) (s : String) : String :=
  match p with
  | none => s
  | some f => match f s with
    | .ok r => r
    | .error _ => s


/-!
Lemmas about keep-first-occurrence deduplication, shared by the
deduplication of items and of extracted links.
-/

/-!
Concrete environments, states and inputs used by the witnesses and
counterexamples below.
-/

/-- Sample item used by concrete instances. -/
def mkItem (t l : String) : RssItem :=
  { title := t, link := l, publishedAt := 0, links := [], itemId := none, rawContent := none }

/-- HTML parser instance for the C9 witness: three anchors, two with the
same href and one distinct. -/
def dupAnchorsEnv : HtmlEnv :=
  { anchors := fun _ => some [some " a ", some "a", some "b"] }

/-- Per-entry parser of the C2 witness over Nat raw entries: even
entries succeed, odd entries fail. -/
def evenParse : Nat → Except String Nat :=
  fun n => if n % 2 = 0 then .ok n else .error ("bad " ++ toString n)

/-- Per-entry parser of the C2 witness that always fails. -/
def alwaysFailParse : Nat → Except String Nat :=
  fun n => .error ("bad " ++ toString n)

/-- Pattern of the C8 witness that throws on every input. -/
def throwingPattern : String → Except Unit String := fun _ => .error ()

/-- Options of the C8 witness: a throwing prefix pattern and a suffix
pattern that rewrites the sample suffix away. -/
def witnessCleanOptions : TitleCleanOptions :=
  { prefixPattern := some throwingPattern, suffixPattern := none }

/-- Outcome sequence of the C5 witness: attempts 1 and 2 fail, attempt 3
succeeds. -/
def witnessOutcomes : Nat → Except String Nat :=
  fun n => if n = 3 then .ok 42 else .error ("e" ++ toString n)

/-- Always failing outcome sequence of the C5 witness. -/
def witnessFailOutcomes : Nat → Except String Nat :=
  fun n => .error ("e" ++ toString n)

/-- Engine of the pool witnesses: every handle is connected, closes
succeed, and manager i launches handle 10 + i. -/
def healthyEnv : BrowserEnv :=
  { connected := fun _ => true, closeResult := fun _ => .ok (),
    launchResult := fun i => .ok (10 + i) }

/-- XML environment of the pipeline witnesses; it is never consulted on
the failing paths. -/
def unusedXmlEnv : XmlEnv Nat := { parseXml := fun _ => .error "unused" }

/-- Navigation environment of the pipeline witnesses; it reports no
response for every navigation. -/
def noResponseFetchEnv : FetchEnv := { navigate := fun _ _ _ => .noResponse }

/-- Item parser of the pipeline witnesses; it is never consulted on the
failing paths. -/
def unusedParseOne : Nat → Except RssError RssItem := fun _ => .error (.generic "unused")

/-- Engine whose graceful close always fails, used to exercise the close
failure path of restart. -/
def failingCloseEnv : BrowserEnv :=
  { connected := fun _ => true, closeResult := fun _ => .error "close failed",
    launchResult := fun i => .ok (10 + i) }

/-- Pool state with one handle in use and one queued waiter: pool size
1, handle 10 held by a caller, caller 99 waiting. -/
def waiterPoolState : PoolState :=
  { poolSize := 1, managers := [{ id := 0, browser := some 10, launching := false }],
    available := [], busy := [10], initialized := true, waitQueue := [99] }

/-- State after handle 10 is handed to waiter 99: still in use, queue
empty. -/
def afterHandoffState : PoolState :=
  { poolSize := 1, managers := [{ id := 0, browser := some 10, launching := false }],
    available := [], busy := [10], initialized := true, waitQueue := [] }

/-- State after the second release: handle 10 back in the available
list. -/
def afterSecondReleaseState : PoolState :=
  { poolSize := 1, managers := [{ id := 0, browser := some 10, launching := false }],
    available := [10], busy := [], initialized := true, waitQueue := [] }

/-- Message of the fetch error raised by fetchFeed before navigation
when the URL is missing or has a non-http scheme. -/
def badSchemeMsg (feedUrl : String) : String :=
  if feedUrl = "" then "Feed URL is required"
  else "Invalid feed URL: must use HTTP or HTTPS protocol"

/-- Size-2 pool as produced by a successful initialization under the
healthy engine. -/
def readyPool2 : PoolState :=
  { poolSize := 2,
    managers := [{ id := 0, browser := some 10, launching := false },
                 { id := 1, browser := some 11, launching := false }],
    available := [10, 11], busy := [], initialized := true, waitQueue := [] }

/-- The loop translated from the source equals the specification-side
recursion, for any set of already seen keys. -/
theorem dedupFirstByAux_eq_keepFirstBy {α β : Type} [DecidableEq β] (key : α → β)
    (l : List α) : ∀ seen : List β,
    dedupFirstByAux key seen l = keepFirstBy key (l.filter (fun x => key x ∉ seen)) := by
  induction l with
  | nil => intro seen; simp [dedupFirstByAux, keepFirstBy]
  | cons x rest ih =>
    intro seen
    by_cases h : key x ∈ seen
    · rw [dedupFirstByAux, if_pos h, ih seen]
      congr 1
      rw [List.filter_cons]
      simp [h]
    · have hfc : (x :: rest).filter (fun y => decide (key y ∉ seen)) =
          x :: rest.filter (fun y => decide (key y ∉ seen)) := by
        rw [List.filter_cons]
        simp [h]
      rw [dedupFirstByAux, if_neg h, hfc, keepFirstBy.eq_2]
      rw [ih (key x :: seen), List.filter_filter]
      congr 1
      apply congrArg
      apply List.filter_congr
      intro y _
      by_cases h1 : key y = key x <;> by_cases h2 : key y ∈ seen <;>
        simp [h1, h2, List.mem_cons]

/-- The deduplicated list is a sublist of the input: original relative
order is preserved and nothing new appears. -/
theorem keepFirstBy_sublist {α β : Type} [DecidableEq β] (key : α → β) :
    (l : List α) → (keepFirstBy key l).Sublist l
  | [] => by rw [keepFirstBy.eq_1]
  | x :: rest => by
    rw [keepFirstBy.eq_2]
    exact .cons₂ x ((keepFirstBy_sublist key _).trans (List.filter_sublist rest))
termination_by l => l.length
decreasing_by
  simp only [List.length_cons]
  exact Nat.lt_succ_of_le (List.length_filter_le _ _)

/-- Keys of the deduplicated list are pairwise distinct. -/
theorem keepFirstBy_pairwise {α β : Type} [DecidableEq β] (key : α → β) :
    (l : List α) → (keepFirstBy key l).Pairwise (fun a b => key a ≠ key b)
  | [] => by rw [keepFirstBy.eq_1]; exact .nil
  | x :: rest => by
    rw [keepFirstBy.eq_2]
    refine .cons ?_ (keepFirstBy_pairwise key _)
    intro y hy
    have hmem : y ∈ rest.filter (fun z => key z ≠ key x) :=
      (keepFirstBy_sublist key _).subset hy
    have hne : key y ≠ key x := by
      have := List.of_mem_filter hmem
      simpa using this
    exact Ne.symm hne
termination_by l => l.length
decreasing_by
  simp only [List.length_cons]
  exact Nat.lt_succ_of_le (List.length_filter_le _ _)

/-- Finding by a key different from the filtered-out key is unaffected
by the filter. -/
theorem find?_filter_ne {α β : Type} [DecidableEq β] (key : α → β) (k0 k1 : β)
    (hne : k1 ≠ k0) (l : List α) :
    (l.filter (fun y => key y ≠ k0)).find? (fun z => key z = k1) =
      l.find? (fun z => key z = k1) := by
  induction l with
  | nil => simp
  | cons a rest ih =>
    by_cases ha : key a = k0
    · have h1 : (decide (key a ≠ k0)) = false := by simp [ha]
      have h2 : (decide (key a = k1)) = false := by
        simp only [decide_eq_false_iff_not]
        intro h
        exact hne (h ▸ ha)
      rw [List.filter_cons, h1, List.find?_cons, h2]
      exact ih
    · have h1 : (decide (key a ≠ k0)) = true := by simp [ha]
      rw [List.filter_cons, h1]
      simp only [if_true]
      rw [List.find?_cons, List.find?_cons]
      cases hpa : decide (key a = k1) with
      | true => rfl
      | false => exact ih

/-- Every element kept by the deduplication is the first occurrence of
its key in the input. -/
theorem keepFirstBy_mem_find? {α β : Type} [DecidableEq β] (key : α → β) :
    (l : List α) → ∀ x ∈ keepFirstBy key l,
      l.find? (fun z => key z = key x) = some x
  | [] => by rw [keepFirstBy.eq_1]; simp
  | a :: rest => by
    rw [keepFirstBy.eq_2]
    intro x hx
    rcases List.mem_cons.mp hx with h | h
    · subst h
      rw [List.find?_cons]
      simp
    · have hmem : x ∈ rest.filter (fun z => key z ≠ key a) :=
        (keepFirstBy_sublist key _).subset h
      have hne : key x ≠ key a := by
        have := List.of_mem_filter hmem
        simpa using this
      rw [List.find?_cons]
      have hfa : (decide (key a = key x)) = false := by
        simp only [decide_eq_false_iff_not]
        exact fun hh => hne hh.symm
      rw [hfa]
      rw [← find?_filter_ne key (key a) (key x) hne rest]
      exact keepFirstBy_mem_find? key _ x h
termination_by l => l.length
decreasing_by
  simp only [List.length_cons]
  exact Nat.lt_succ_of_le (List.length_filter_le _ _)

/-- Every key of the input is represented in the deduplicated list. -/
theorem keepFirstBy_covers {α β : Type} [DecidableEq β] (key : α → β) :
    (l : List α) → ∀ x ∈ l, ∃ y ∈ keepFirstBy key l, key y = key x
  | [] => by simp
  | a :: rest => by
    intro x hx
    rw [keepFirstBy.eq_2]
    rcases List.mem_cons.mp hx with h | h
    · exact ⟨a, List.mem_cons_self a _, by rw [h]⟩
    · by_cases hk : key x = key a
      · exact ⟨a, List.mem_cons_self a _, hk.symm⟩
      · have hmem : x ∈ rest.filter (fun z => key z ≠ key a) := by
          apply List.mem_filter.mpr
          exact ⟨h, by simpa using hk⟩
        obtain ⟨y, hy, hky⟩ := keepFirstBy_covers key _ x hmem
        exact ⟨y, List.mem_cons_of_mem a hy, hky⟩
termination_by l => l.length
decreasing_by
  simp only [List.length_cons]
  exact Nat.lt_succ_of_le (List.length_filter_le _ _)

/-- C7: deduplication by canonical link keeps exactly the first
occurrence of each distinct link value and preserves the original
relative order of the kept items; two entries sharing a link collapse to
the first one. Stated as: the source loop equals the specification
recursion, the result is a sublist of the input (order preserved), its
links are pairwise distinct, every kept item is the first occurrence of
its link, and every input link is represented. -/
theorem deduplicateItems_keeps_first_occurrences (items : List RssItem) :
    deduplicateItems items = keepFirstBy RssItem.link items ∧
    (deduplicateItems items).Sublist items ∧
    ((deduplicateItems items).map RssItem.link).Nodup ∧
    (∀ x ∈ deduplicateItems items, items.find? (fun z => z.link = x.link) = some x) ∧
    (∀ x ∈ items, ∃ y ∈ deduplicateItems items, y.link = x.link) := by
  have heq : deduplicateItems items = keepFirstBy RssItem.link items := by
    rw [deduplicateItems, dedupFirstByAux_eq_keepFirstBy]
    congr 1
    apply List.filter_eq_self.mpr
    intro a _
    simp
  refine ⟨heq, ?_, ?_, ?_, ?_⟩
  · rw [heq]
    exact keepFirstBy_sublist _ items
  · rw [heq]
    exact List.pairwise_map.mpr (keepFirstBy_pairwise RssItem.link items)
  · intro x hx
    rw [heq] at hx
    exact keepFirstBy_mem_find? RssItem.link items x hx
  · intro x hx
    rw [heq]
    exact keepFirstBy_covers RssItem.link items x hx

/-- Witness for C7 at a concrete input: two entries share a link and
collapse to the first occurrence, and the shared link of the dropped
entry is still represented, by applying the theorem. -/
theorem deduplicateItems_keeps_first_occurrences_witness :
    deduplicateItems [mkItem "a" "L1", mkItem "b" "L1", mkItem "c" "L2"] =
      [mkItem "a" "L1", mkItem "c" "L2"] ∧
    (∃ y ∈ deduplicateItems [mkItem "a" "L1", mkItem "b" "L1", mkItem "c" "L2"],
      y.link = (mkItem "b" "L1").link) :=
  ⟨by decide,
   (deduplicateItems_keeps_first_occurrences
     [mkItem "a" "L1", mkItem "b" "L1", mkItem "c" "L2"]).2.2.2.2
     (mkItem "b" "L1") (by decide)⟩

/-- The href collection loop equals the specification-side filterMap of
trimmed non-empty values. -/
theorem collectHrefs_eq_trimmedHrefs : ∀ hs, collectHrefs hs = trimmedHrefs hs := by
  intro hs
  induction hs with
  | nil => rfl
  | cons h rest ih =>
    cases h with
    | none => simpa [collectHrefs, trimmedHrefs, List.filterMap_cons] using ih
    | some v =>
      by_cases hv : jsTrim v = ""
      · simp only [collectHrefs, hv, ne_eq, not_true_eq_false, if_false]
        simpa [trimmedHrefs, List.filterMap_cons, Option.bind, hv] using ih
      · simp only [collectHrefs, hv, ne_eq, not_false_eq_true, if_true]
        have : trimmedHrefs (some v :: rest) = jsTrim v :: trimmedHrefs rest := by
          simp [trimmedHrefs, List.filterMap_cons, Option.bind, hv]
        rw [this, ih]

/-- C9: the link extractor returns the trimmed href of every anchor,
discarding empties and removing duplicates while preserving first-seen
order; it is a total function (never throws), and a parser failure on
malformed input, or empty input, yields an empty sequence. -/
theorem extractLinks_spec (env : HtmlEnv) (html : String) :
    (env.anchors html = none → extractLinks env html = []) ∧
    (extractLinks env "" = []) ∧
    (∀ hs, html ≠ "" → env.anchors html = some hs →
      extractLinks env html = keepFirstBy id (trimmedHrefs hs) ∧
      (extractLinks env html).Sublist (trimmedHrefs hs) ∧
      (extractLinks env html).Nodup ∧
      (∀ x ∈ trimmedHrefs hs, x ∈ extractLinks env html)) := by
  refine ⟨?_, ?_, ?_⟩
  · intro h
    rw [extractLinks]
    by_cases he : html = "" <;> simp [he, h]
  · simp [extractLinks]
  · intro hs hne hsome
    have heq : extractLinks env html = keepFirstBy id (trimmedHrefs hs) := by
      rw [extractLinks, if_neg hne, hsome]
      show dedupFirstByAux id [] (collectHrefs hs) = _
      rw [collectHrefs_eq_trimmedHrefs, dedupFirstByAux_eq_keepFirstBy]
      congr 1
      apply List.filter_eq_self.mpr
      intro a _
      simp
    refine ⟨heq, ?_, ?_, ?_⟩
    · rw [heq]
      exact keepFirstBy_sublist _ _
    · rw [heq]
      exact keepFirstBy_pairwise id _
    · intro x hx
      rw [heq]
      obtain ⟨y, hy, hxy⟩ := keepFirstBy_covers id _ x hx
      simpa [show y = x from hxy] using hy

/-- Witness for C9 at a concrete input: two identical hrefs and one
distinct href yield exactly two entries in original order, by applying
the theorem, and the concrete evaluation agrees. -/
theorem extractLinks_spec_witness :
    extractLinks dupAnchorsEnv "<p>x</p>" =
      keepFirstBy id (trimmedHrefs [some " a ", some "a", some "b"]) ∧
    extractLinks dupAnchorsEnv "<p>x</p>" = ["a", "b"] :=
  ⟨((extractLinks_spec dupAnchorsEnv "<p>x</p>").2.2
      [some " a ", some "a", some "b"] (by decide) rfl).1,
   by decide⟩

/-- The accumulation loop of parseItems appends the successes and the
collected failures of the remaining raw items, in order. -/
theorem parseItemsAux_spec {ρ ι ε : Type} (parseOne : ρ → Except ε ι) :
    ∀ (l : List ρ) (items : List ι) (errs : List ε),
      parseItemsAux parseOne l items errs =
        (items ++ successfulItems parseOne l, errs ++ collectedErrors parseOne l) := by
  intro l
  induction l with
  | nil => intro items errs; simp [parseItemsAux, successfulItems, collectedErrors]
  | cons r rest ih =>
    intro items errs
    cases hr : parseOne r with
    | ok i =>
      simp only [parseItemsAux, hr]
      rw [ih]
      simp [successfulItems, collectedErrors, List.filterMap_cons, hr, Except.toOption]
    | error e =>
      simp only [parseItemsAux, hr]
      rw [ih]
      simp [successfulItems, collectedErrors, List.filterMap_cons, hr, Except.toOption]

/-- C2: per-entry failures are collected rather than aborting the batch;
when at least one entry succeeds the result is exactly the successful
items in order, the failures dropped; when the entry list is non-empty
and every entry fails, the first collected failure is raised. -/
theorem parseItems_collects_failures {ρ ι ε : Type} (parseOne : ρ → Except ε ι)
    (rawItems : List ρ) :
    ((∃ r ∈ rawItems, (parseOne r).isOk = true) →
      parseItems parseOne rawItems = .ok (successfulItems parseOne rawItems)) ∧
    (∀ r0 rest e0, rawItems = r0 :: rest →
      (∀ r ∈ rawItems, (parseOne r).isOk = false) →
      parseOne r0 = .error e0 →
      parseItems parseOne rawItems = .error e0) := by
  constructor
  · rintro ⟨r, hr, hok⟩
    obtain ⟨i, hi⟩ : ∃ i, parseOne r = .ok i := by
      cases h : parseOne r with
      | ok i => exact ⟨i, rfl⟩
      | error e => rw [h] at hok; simp [Except.isOk, Except.toBool] at hok
    have hmem : i ∈ successfulItems parseOne rawItems := by
      apply List.mem_filterMap.mpr
      exact ⟨r, hr, by simp [hi, Except.toOption]⟩
    rw [parseItems, parseItemsAux_spec]
    simp only [List.nil_append]
    cases hsucc : successfulItems parseOne rawItems with
    | nil => rw [hsucc] at hmem; simp at hmem
    | cons a tl => rfl
  · intro r0 rest e0 hshape hall h0
    have hsucc : successfulItems parseOne rawItems = [] := by
      apply List.filterMap_eq_nil_iff.mpr
      intro r hr
      have := hall r hr
      cases h : parseOne r with
      | ok i => rw [h] at this; simp [Except.isOk, Except.toBool] at this
      | error e => simp [Except.toOption]
    have herr : collectedErrors parseOne rawItems = e0 :: collectedErrors parseOne rest := by
      rw [hshape]
      simp [collectedErrors, List.filterMap_cons, h0]
    rw [parseItems, parseItemsAux_spec]
    simp only [List.nil_append]
    rw [hsucc, herr]

/-- Witness for C2: with a mixed batch the successes survive in order
and the failures are dropped; with an all-failing non-empty batch the
first failure is raised. Both follow by applying the theorem at concrete
inputs. -/
theorem parseItems_collects_failures_witness :
    parseItems evenParse [1, 2, 3, 4] = .ok (successfulItems evenParse [1, 2, 3, 4]) ∧
    successfulItems evenParse [1, 2, 3, 4] = [2, 4] ∧
    parseItems alwaysFailParse [1, 2] = .error "bad 1" :=
  ⟨(parseItems_collects_failures evenParse [1, 2, 3, 4]).1 ⟨2, by decide, by decide⟩,
   by decide,
   (parseItems_collects_failures alwaysFailParse [1, 2]).2 1 [2] "bad 1" rfl
     (by intro r hr; rfl) rfl⟩

/-- C8: the cleaner applies the optional prefix pattern, then the
optional suffix pattern, then collapses whitespace runs and trims; a
throwing pattern is swallowed, cleaning continuing with the value as it
stood; empty input yields the empty string (the non-string case of the
source is outside the embedding); the sample title with no patterns
normalizes as specified. -/
theorem cleanTitle_spec :
    (∀ opts, cleanTitle "" opts = "") ∧
    (∀ title opts, title ≠ "" →
      cleanTitle title opts =
        normalizeWhitespace (applyPattern opts.suffixPattern (applyPattern opts.prefixPattern title))) ∧
    (∀ s p, p s = .error () → applyPattern (some p) s = s) ∧
    cleanTitle "Sample    Title\n\twith" noCleanOptions = "Sample Title with" := by
  refine ⟨?_, ?_, ?_, ?_⟩
  · intro opts
    simp [cleanTitle]
  · intro title opts h
    rw [cleanTitle, if_neg h]
    rfl
  · intro s p h
    simp [applyPattern, h]
  · decide

/-- Witness for C8: the theorem applied at concrete inputs, plus the
concrete evaluation showing the throwing prefix pattern is swallowed and
the title survives to whitespace normalization. -/
theorem cleanTitle_spec_witness :
    cleanTitle "" witnessCleanOptions = "" ∧
    cleanTitle "A  B" witnessCleanOptions =
      normalizeWhitespace (applyPattern witnessCleanOptions.suffixPattern
        (applyPattern witnessCleanOptions.prefixPattern "A  B")) ∧
    applyPattern (some throwingPattern) "A  B" = "A  B" ∧
    cleanTitle "A  B" witnessCleanOptions = "A B" :=
  ⟨cleanTitle_spec.1 witnessCleanOptions,
   cleanTitle_spec.2.1 "A  B" witnessCleanOptions (by decide),
   cleanTitle_spec.2.2.1 "A  B" throwingPattern rfl,
   by decide⟩

/-- The retry loop executes the operation at most as many times as it
has remaining attempts. -/
theorem retryGo_count_le {σ E A : Type} (op : σ → Except E A × σ) (opts : RetryOptions)
    (inv : E) : ∀ (f d : Nat) (s : σ), (retryGo op opts inv f d s).2.2.1 ≤ f := by
  intro f
  induction f using Nat.strong_induction_on with
  | _ f ih =>
    intro d s
    match f with
    | 0 => simp [retryGo]
    | 1 =>
      rcases hop : op s with ⟨r, s1⟩
      simp [retryGo, hop]
    | g + 2 =>
      rcases hop : op s with ⟨r, s1⟩
      cases r with
      | ok a => simp [retryGo, hop]
      | error e =>
        have h1 := ih (g + 1) (by omega)
          (min (d * opts.backoffMultiplier) opts.maxDelay) s1
        rcases hrec : retryGo op opts inv (g + 1)
            (min (d * opts.backoffMultiplier) opts.maxDelay) s1 with ⟨r2, s2, c, ds⟩
        rw [hrec] at h1
        simp only [retryGo, hop, hrec]
        simp only at h1
        omega

/-- When every attempt available to the loop fails, the loop runs all of
them, sleeps the backoff schedule, and rethrows the error of the last
attempt unchanged. Attempt numbers start at the state value n. -/
theorem retryGo_attempt_all_fail {E A : Type} (outcomes : Nat → Except E A)
    (opts : RetryOptions) (inv : E) :
    ∀ (f : Nat), 1 ≤ f → ∀ (n d : Nat),
      (∀ j, n ≤ j → j < n + f → (outcomes j).isOk = false) →
      retryGo (attemptOp outcomes) opts inv f d n =
        (outcomes (n + f - 1), n + f, f, backoffDelays opts d (f - 1)) := by
  intro f
  induction f using Nat.strong_induction_on with
  | _ f ih =>
    intro hf n d hall
    match f with
    | 1 =>
      simp only [retryGo, attemptOp, backoffDelays, Nat.add_sub_cancel]
    | g + 2 =>
      have hn := hall n (Nat.le_refl n) (by omega)
      cases ho : outcomes n with
      | ok a => rw [ho] at hn; simp [Except.isOk, Except.toBool] at hn
      | error e =>
        have hall2 : ∀ j, n + 1 ≤ j → j < n + 1 + (g + 1) → (outcomes j).isOk = false := by
          intro j h1 h2
          exact hall j (by omega) (by omega)
        have hrec := ih (g + 1) (by omega) (by omega) (n + 1)
          (min (d * opts.backoffMultiplier) opts.maxDelay) hall2
        simp only [retryGo, attemptOp, ho, hrec]
        have e1 : n + 1 + (g + 1) - 1 = n + (g + 2) - 1 := by omega
        have e2 : n + 1 + (g + 1) = n + (g + 2) := by omega
        rw [e1, e2]
        have e3 : backoffDelays opts d (g + 2 - 1) =
            d :: backoffDelays opts (min (d * opts.backoffMultiplier) opts.maxDelay)
              (g + 1 - 1) := by
          simp [backoffDelays]
        rw [e3]

/-- When the first success arrives at offset k within the attempt
budget, the loop returns it, having executed exactly the failed attempts
before it plus the successful one and slept the backoff schedule between
them. -/
theorem retryGo_attempt_success {E A : Type} (outcomes : Nat → Except E A)
    (opts : RetryOptions) (inv : E) :
    ∀ (k f n d : Nat), k < f →
      (∀ j, n ≤ j → j < n + k → (outcomes j).isOk = false) →
      (outcomes (n + k)).isOk = true →
      retryGo (attemptOp outcomes) opts inv f d n =
        (outcomes (n + k), n + k + 1, k + 1, backoffDelays opts d k) := by
  intro k
  induction k with
  | zero =>
    intro f n d hk hfail hok
    obtain ⟨g, rfl⟩ : ∃ g, f = g + 1 := ⟨f - 1, by omega⟩
    cases g with
    | zero => simp [retryGo, attemptOp, backoffDelays]
    | succ g1 =>
      cases ho : outcomes n with
      | error e => rw [Nat.add_zero, ho] at hok; simp [Except.isOk, Except.toBool] at hok
      | ok a => simp [retryGo, attemptOp, ho, backoffDelays]
  | succ k ihk =>
    intro f n d hk hfail hok
    obtain ⟨g, rfl⟩ : ∃ g, f = g + 2 := ⟨f - 2, by omega⟩
    have hn := hfail n (Nat.le_refl n) (by omega)
    cases ho : outcomes n with
    | ok a => rw [ho] at hn; simp [Except.isOk, Except.toBool] at hn
    | error e =>
      have hfail2 : ∀ j, n + 1 ≤ j → j < n + 1 + k → (outcomes j).isOk = false := by
        intro j h1 h2
        exact hfail j (by omega) (by omega)
      have hok2 : (outcomes (n + 1 + k)).isOk = true := by
        have : n + 1 + k = n + (k + 1) := by omega
        rw [this]
        exact hok
      have hrec := ihk (g + 1) (n + 1)
        (min (d * opts.backoffMultiplier) opts.maxDelay) (by omega) hfail2 hok2
      simp only [retryGo, attemptOp, ho, hrec]
      have e1 : n + 1 + k = n + (k + 1) := by omega
      rw [e1]
      have e3 : backoffDelays opts d (k + 1) =
          d :: backoffDelays opts (min (d * opts.backoffMultiplier) opts.maxDelay) k := by
        simp [backoffDelays]
      rw [e3]

/-- C5: executeWithRetry runs the operation at most maxAttempts times;
it returns the first successful result, having executed exactly the
attempts up to it; when every attempt fails it re-raises the error of
the last attempt unchanged after maxAttempts executions; the delays
slept between failed attempts start at the configured initial value and
are multiplied by the configured factor after each attempt, capped at
the configured maximum; and maxAttempts below 1 fails immediately with
no execution of the operation. Attempts are numbered from 1 by the
threaded state. -/
theorem executeWithRetry_spec {E A : Type} (outcomes : Nat → Except E A) (inv : E)
    (maxAttempts : Nat) (opts : RetryOptions) :
    (maxAttempts = 0 →
      executeWithRetry (attemptOp outcomes) inv maxAttempts opts 1 =
        (.error inv, 1, 0, [])) ∧
    ((executeWithRetry (attemptOp outcomes) inv maxAttempts opts 1).2.2.1 ≤ maxAttempts) ∧
    (∀ k, 1 ≤ k → k ≤ maxAttempts →
      (∀ j, 1 ≤ j → j < k → (outcomes j).isOk = false) → (outcomes k).isOk = true →
      executeWithRetry (attemptOp outcomes) inv maxAttempts opts 1 =
        (outcomes k, k + 1, k, backoffDelays opts opts.initialDelay (k - 1))) ∧
    (1 ≤ maxAttempts → (∀ j, 1 ≤ j → j ≤ maxAttempts → (outcomes j).isOk = false) →
      executeWithRetry (attemptOp outcomes) inv maxAttempts opts 1 =
        (outcomes maxAttempts, maxAttempts + 1, maxAttempts,
          backoffDelays opts opts.initialDelay (maxAttempts - 1))) := by
  refine ⟨?_, ?_, ?_, ?_⟩
  · intro h
    simp [executeWithRetry, h]
  · rw [executeWithRetry]
    by_cases h : maxAttempts < 1
    · simp [h]
    · rw [if_neg h]
      exact retryGo_count_le (attemptOp outcomes) opts inv maxAttempts opts.initialDelay 1
  · intro k hk1 hkm hfail hok
    rw [executeWithRetry, if_neg (by omega)]
    have hfail2 : ∀ j, 1 ≤ j → j < 1 + (k - 1) → (outcomes j).isOk = false := by
      intro j h1 h2
      exact hfail j h1 (by omega)
    have hok2 : (outcomes (1 + (k - 1))).isOk = true := by
      have : 1 + (k - 1) = k := by omega
      rw [this]
      exact hok
    have := retryGo_attempt_success outcomes opts inv (k - 1) maxAttempts 1
      opts.initialDelay (by omega) hfail2 hok2
    rw [this]
    have e1 : 1 + (k - 1) = k := by omega
    have e2 : k - 1 + 1 = k := by omega
    rw [e1, e2]
  · intro hm hfail
    rw [executeWithRetry, if_neg (by omega)]
    have hfail2 : ∀ j, 1 ≤ j → j < 1 + maxAttempts → (outcomes j).isOk = false := by
      intro j h1 h2
      exact hfail j h1 (by omega)
    have := retryGo_attempt_all_fail outcomes opts inv maxAttempts hm 1
      opts.initialDelay hfail2
    rw [this]
    have e1 : 1 + maxAttempts - 1 = maxAttempts := by omega
    have e2 : 1 + maxAttempts = maxAttempts + 1 := by omega
    rw [e1, e2]

/-- Witness for C5: the theorem applied with five allowed attempts and a
success at attempt three, with four allowed attempts all failing, and
with zero attempts; the concrete backoff schedules evaluate as expected,
showing the doubling and the cap. -/
theorem executeWithRetry_spec_witness :
    executeWithRetry (attemptOp witnessOutcomes) "invalid" 5
      { initialDelay := 1000, maxDelay := 30000, backoffMultiplier := 2 } 1 =
      (witnessOutcomes 3, 4, 3,
        backoffDelays { initialDelay := 1000, maxDelay := 30000, backoffMultiplier := 2 } 1000 2) ∧
    executeWithRetry (attemptOp witnessFailOutcomes) "invalid" 4
      { initialDelay := 1000, maxDelay := 3000, backoffMultiplier := 2 } 1 =
      (witnessFailOutcomes 4, 5, 4,
        backoffDelays { initialDelay := 1000, maxDelay := 3000, backoffMultiplier := 2 } 1000 3) ∧
    executeWithRetry (attemptOp witnessOutcomes) "invalid" 0
      { initialDelay := 1000, maxDelay := 30000, backoffMultiplier := 2 } 1 =
      (.error "invalid", 1, 0, []) ∧
    backoffDelays { initialDelay := 1000, maxDelay := 3000, backoffMultiplier := 2 } 1000 3 =
      [1000, 2000, 3000] :=
  ⟨(executeWithRetry_spec witnessOutcomes "invalid" 5
      { initialDelay := 1000, maxDelay := 30000, backoffMultiplier := 2 }).2.2.1 3
      (by decide) (by decide) (by intro j h1 h2; interval_cases j <;> rfl) rfl,
   (executeWithRetry_spec witnessFailOutcomes "invalid" 4
      { initialDelay := 1000, maxDelay := 3000, backoffMultiplier := 2 }).2.2.2
      (by decide) (by intro j h1 h2; rfl),
   (executeWithRetry_spec witnessOutcomes "invalid" 0
      { initialDelay := 1000, maxDelay := 30000, backoffMultiplier := 2 }).1 rfl,
   by decide⟩

/-- Launching a list of fresh managers whose engine launches all succeed
produces one handle per manager. -/
theorem launchAllAux_ok (env : BrowserEnv) :
    ∀ ms : List BMState,
      (∀ m ∈ ms, m.browser = none ∧ (env.launchResult m.id).isOk = true) →
      ∃ pairs, launchAllAux env ms = .ok pairs ∧ pairs.length = ms.length := by
  intro ms
  induction ms with
  | nil => intro h; exact ⟨[], rfl, rfl⟩
  | cons m rest ih =>
    intro h
    obtain ⟨hb, hl⟩ := h m (List.mem_cons_self m rest)
    obtain ⟨nb, hnb⟩ : ∃ nb, env.launchResult m.id = .ok nb := by
      cases hr : env.launchResult m.id with
      | ok nb => exact ⟨nb, rfl⟩
      | error msg => rw [hr] at hl; simp [Except.isOk, Except.toBool] at hl
    obtain ⟨tl, htl, hlen⟩ := ih (fun x hx => h x (List.mem_cons_of_mem m hx))
    refine ⟨(nb, { m with browser := some nb, launching := false }) :: tl, ?_, by simp [hlen]⟩
    rw [launchAllAux]
    rw [show bmLaunch env m = (.ok nb, { m with browser := some nb, launching := false }) by
      rw [bmLaunch, hb, bmLaunchFresh, hnb]]
    rw [htl]

/-- C4: for a valid configuration of pool size P, a successful
initialization reports total P, available P and zero in use, and a
second initialization is a no-op on the initialized pool. -/
theorem initializePool_stats_and_idempotent (env : BrowserEnv) (P : Nat) (s0 : PoolState)
    (hmk : mkBrowserPool P = .ok s0)
    (hlaunch : ∀ i, i < P → (env.launchResult i).isOk = true) :
    ∃ s1, initializePool env s0 = (.ok (), s1) ∧
      getStats s1 = { total := P, available := P, inUse := 0 } ∧
      isInitialized s1 = true ∧
      initializePool env s1 = (.ok (), s1) := by
  have hs0 : s0 = { poolSize := P, managers := [], available := [], busy := [],
                    initialized := false, waitQueue := [] } := by
    rw [mkBrowserPool] at hmk
    by_cases h : P < 1
    · rw [if_pos h] at hmk; exact absurd hmk (by simp)
    · rw [if_neg h] at hmk
      exact ((Except.ok.injEq _ _).mp hmk).symm
  subst hs0
  have hms : ∀ m ∈ (List.range P).map
      (fun i => ({ id := i, browser := none, launching := false } : BMState)),
      m.browser = none ∧ (env.launchResult m.id).isOk = true := by
    intro m hm
    obtain ⟨i, hi, rfl⟩ := List.mem_map.mp hm
    exact ⟨rfl, hlaunch i (List.mem_range.mp hi)⟩
  obtain ⟨pairs, hpairs, hlen⟩ := launchAllAux_ok env _ hms
  rw [List.length_map, List.length_range] at hlen
  refine ⟨{ poolSize := P, managers := pairs.map Prod.snd, available := pairs.map Prod.fst,
            busy := [], initialized := true, waitQueue := [] }, ?_, ?_, ?_, ?_⟩
  · rw [initializePool]
    simp only [if_neg (by simp : ¬ (false = true))]
    rw [hpairs]
  · simp only [getStats, List.length_map]
    rw [hlen]
    simp
  · rfl
  · rw [initializePool]
    simp

/-- Witness for C4: a pool of size 2 initializes, reports total 2,
available 2, none in use, and reinitializing is a no-op, by applying the
theorem. -/
theorem initializePool_stats_and_idempotent_witness :
    ∃ s1, initializePool healthyEnv
        { poolSize := 2, managers := [], available := [], busy := [],
          initialized := false, waitQueue := [] } = (.ok (), s1) ∧
      getStats s1 = { total := 2, available := 2, inUse := 0 } ∧
      isInitialized s1 = true ∧
      initializePool healthyEnv s1 = (.ok (), s1) :=
  initializePool_stats_and_idempotent healthyEnv 2
    { poolSize := 2, managers := [], available := [], busy := [],
      initialized := false, waitQueue := [] } rfl
    (by intro i hi; rfl)

/-- C10: fetchAndParse on a reader whose pool is not initialized throws
the automation-resource error of the fetchAndParse guard immediately,
before any retry attempt, pool acquisition or navigation (the trace is
empty), and leaves the pool state unchanged; closing a pool always
leaves it uninitialized, so the same holds after close. -/
theorem fetchAndParse_uninitialized_guard {ρ : Type} (benv : BrowserEnv)
    (fenv : FetchEnv) (xenv : XmlEnv ρ) (parseOne : ρ → Except RssError RssItem)
    (retryAttempts timeout : Nat) (fetchedAt : Int) (feedUrl : String)
    (s : PoolState) (h : s.initialized = false) :
    fetchAndParse benv fenv xenv parseOne retryAttempts timeout fetchedAt feedUrl s =
      (.error (.browser "Browser pool not initialized. Call initialize() first."
        "fetchAndParse"), s, emptyTrace) ∧
    (∀ s2 : PoolState, (closePool s2).initialized = false) := by
  constructor
  · rw [fetchAndParse, if_pos (by simp [h])]
  · intro s2
    rw [closePool]
    by_cases h2 : s2.initialized
    · simp [h2, cleanupState]
    · simp [h2]

/-- Witness for C10: the theorem applied to a closed pool of size 2,
with the guard error, the unchanged state and the empty trace evaluated
concretely. -/
theorem fetchAndParse_uninitialized_guard_witness :
    fetchAndParse healthyEnv noResponseFetchEnv unusedXmlEnv unusedParseOne 3 30000 0
      "https://example.com/feed"
      { poolSize := 2, managers := [], available := [], busy := [],
        initialized := false, waitQueue := [] } =
      (.error (.browser "Browser pool not initialized. Call initialize() first."
        "fetchAndParse"),
       { poolSize := 2, managers := [], available := [], busy := [],
         initialized := false, waitQueue := [] }, emptyTrace) ∧
    (closePool { poolSize := 2, managers := [], available := [], busy := [],
                 initialized := false, waitQueue := [] }).initialized = false :=
  ⟨(fetchAndParse_uninitialized_guard healthyEnv noResponseFetchEnv unusedXmlEnv
      unusedParseOne 3 30000 0 "https://example.com/feed"
      { poolSize := 2, managers := [], available := [], busy := [],
        initialized := false, waitQueue := [] } rfl).1,
   (fetchAndParse_uninitialized_guard healthyEnv noResponseFetchEnv unusedXmlEnv
      unusedParseOne 3 30000 0 "https://example.com/feed"
      { poolSize := 2, managers := [], available := [], busy := [],
        initialized := false, waitQueue := [] } rfl).2
     { poolSize := 2, managers := [], available := [], busy := [],
       initialized := false, waitQueue := [] }⟩

/-- Counterexample to C6: for a manager holding handle 5 whose graceful
close fails, restart propagates the close error to its caller and the
relaunch is not attempted, contradicting the claim that a close failure
is ignored and does not prevent the relaunch. -/
theorem bmRestart_propagates_close_error_cex :
    (bmRestart failingCloseEnv { id := 0, browser := some 5, launching := false }).1 =
      .error (.browser "Failed to close browser: close failed" "close") ∧
    (bmRestart failingCloseEnv { id := 0, browser := some 5, launching := false }).2.2 =
      false :=
  ⟨rfl, rfl⟩

/-- C6 amended: restart closes and then relaunches, and a successful (or
vacuous) close is followed by the relaunch of the cleared manager; but a
failure of the graceful close is propagated to the caller of restart as
a close error and the relaunch is not attempted, the handle reference
being cleared nonetheless. -/
theorem bmRestart_spec (env : BrowserEnv) (m : BMState) :
    (∀ b msg, m.browser = some b → env.closeResult b = .error msg →
      bmRestart env m =
        (.error (.browser ("Failed to close browser: " ++ msg) "close"),
         { m with browser := none }, false)) ∧
    ((∀ b, m.browser = some b → env.closeResult b = .ok ()) →
      bmRestart env m =
        (let (r, m2) := bmLaunch env { m with browser := none }
         (r, m2, true))) := by
  constructor
  · intro b msg hb hc
    simp only [bmRestart, bmClose, hb, hc]
  · intro hok
    cases hb : m.browser with
    | none =>
      have hmeq : ({ m with browser := none } : BMState) = m := by
        rcases m with ⟨mid, mbr, ml⟩
        simp only at hb
        rw [hb]
      simp only [bmRestart, bmClose, hb, hmeq]
    | some b =>
      have hc := hok b hb
      simp only [bmRestart, bmClose, hb, hc]

/-- Witness for C6 amended: both branches of the theorem applied at
concrete managers, one with a failing close and one with a healthy
close. -/
theorem bmRestart_spec_witness :
    bmRestart failingCloseEnv { id := 0, browser := some 6, launching := false } =
      (.error (.browser "Failed to close browser: close failed" "close"),
       { id := 0, browser := none, launching := false }, false) ∧
    bmRestart healthyEnv { id := 1, browser := some 7, launching := false } =
      (let (r, m2) := bmLaunch healthyEnv { id := 1, browser := none, launching := false }
       (r, m2, true)) :=
  ⟨(bmRestart_spec failingCloseEnv { id := 0, browser := some 6, launching := false }).1
      6 "close failed" rfl rfl,
   (bmRestart_spec healthyEnv { id := 1, browser := some 7, launching := false }).2
      (by intro b hb; rfl)⟩

/-- C3 amended: release fails with a resource error, leaving the pool
state unchanged, when the pool is not initialized or when the handle is
not currently recorded as in-use; after a successful release with no
queued waiter the handle leaves the in-use set and a second release of
it fails; but when an acquirer is waiting, the handle is handed over and
recorded as in-use again, so the released-twice guarantee holds only in
the absence of waiters. -/
theorem release_spec (env : BrowserEnv) (b : Browser) (s : PoolState) :
    (s.initialized = false →
      release env b s = .err (.browser "Browser pool is not initialized" "release") s) ∧
    (s.initialized = true → b ∉ s.busy →
      release env b s =
        .err (.browser "Browser is not from this pool or was already released" "release")
          s) ∧
    (s.initialized = true → b ∈ s.busy → s.busy.Nodup → s.waitQueue = [] →
      release env b s =
        .ok { s with busy := s.busy.erase b, available := s.available ++ [b] } none ∧
      release env b { s with busy := s.busy.erase b, available := s.available ++ [b] } =
        .err (.browser "Browser is not from this pool or was already released" "release")
          { s with busy := s.busy.erase b, available := s.available ++ [b] }) := by
  refine ⟨?_, ?_, ?_⟩
  · intro h
    rw [release, if_pos (by simp [h])]
  · intro h1 h2
    rw [release, if_neg (by simp [h1]), if_pos h2]
  · intro h1 h2 hnd hwq
    constructor
    · rw [release, if_neg (by simp [h1]), if_neg (by simp [h2])]
      simp only [hwq]
    · have hne : b ∉ s.busy.erase b := hnd.not_mem_erase
      rw [release, if_neg (by simp [h1]), if_pos (by simpa using hne)]

/-- Counterexample to C3: with a waiter queued, releasing handle 10
hands it to the waiter and records it in use again, so a second release
of the same handle succeeds instead of failing; the waiter state itself
arises from an acquire on the exhausted pool. -/
theorem release_double_release_succeeds_cex :
    acquireStep healthyEnv 99 3 0 afterHandoffState = .blocked waiterPoolState ∧
    release healthyEnv 10 waiterPoolState = .ok afterHandoffState (some (99, 10)) ∧
    release healthyEnv 10 afterHandoffState = .ok afterSecondReleaseState none := by
  refine ⟨?_, ?_, ?_⟩ <;> decide

/-- Witness for C3 amended: the theorem applied at concrete states
covering all three parts, on an uninitialized pool, a handle not in use,
and a waiter-free double release whose second call fails. -/
theorem release_spec_witness :
    release healthyEnv 10
      { poolSize := 1, managers := [], available := [], busy := [],
        initialized := false, waitQueue := [] } =
      .err (.browser "Browser pool is not initialized" "release")
        { poolSize := 1, managers := [], available := [], busy := [],
          initialized := false, waitQueue := [] } ∧
    release healthyEnv 77 afterHandoffState =
      .err (.browser "Browser is not from this pool or was already released" "release")
        afterHandoffState ∧
    (release healthyEnv 10 afterHandoffState = .ok afterSecondReleaseState none ∧
     release healthyEnv 10 afterSecondReleaseState =
       .err (.browser "Browser is not from this pool or was already released" "release")
         afterSecondReleaseState) :=
  ⟨(release_spec healthyEnv 10
      { poolSize := 1, managers := [], available := [], busy := [],
        initialized := false, waitQueue := [] }).1 rfl,
   (release_spec healthyEnv 77 afterHandoffState).2.1 rfl (by decide),
   (release_spec healthyEnv 10 afterHandoffState).2.2 rfl (by decide) (by decide) rfl⟩

/-- One run of the retry-wrapped fetch operation on a URL whose scheme
is not http or https: a pool handle is acquired and then released, no
navigation is performed, the fetch error surfaces, and the pool state is
exactly restored. -/
theorem fetchOp_bad_scheme (benv : BrowserEnv) (fenv : FetchEnv) (timeout : Nat)
    (feedUrl : String) (s : PoolState) (b : Browser)
    (hinit : s.initialized = true) (hwq : s.waitQueue = [])
    (hlast : s.available.getLast? = some b) (hconn : benv.connected b = true)
    (hnb : b ∉ s.busy) (hurl : isHttpUrl feedUrl = false) (tr : FetchTrace) :
    fetchOp benv fenv timeout feedUrl (s, tr) =
      (.error (.feedFetch (badSchemeMsg feedUrl) feedUrl),
       (s, { tr with acquired := tr.acquired + 1 })) := by
  obtain ⟨ps, mg, av, bz, ini, wq⟩ := s
  simp only at hinit hwq hlast hnb
  subst hinit
  subst hwq
  have hne : av ≠ [] := by
    intro h
    rw [h] at hlast
    simp at hlast
  have hgl : av.getLast hne = b := by
    have h := List.getLast?_eq_getLast av hne
    rw [hlast] at h
    exact (Option.some.injEq _ _).mp h.symm
  have hacq : acquireSC benv
      { poolSize := ps, managers := mg, available := av, busy := bz,
        initialized := true, waitQueue := [] } =
      (.ok b, { poolSize := ps, managers := mg, available := av.dropLast,
                busy := bz ++ [b], initialized := true, waitQueue := [] }) := by
    rw [acquireSC, acquireStep, acquireGo]
    simp only [if_neg (by simp : ¬ ¬ (true = true))]
    simp only [hlast, hconn, if_true, setAdd, if_neg hnb]
    simp
  have hff : fetchFeed fenv b feedUrl timeout =
      (.error (.feedFetch (badSchemeMsg feedUrl) feedUrl), false) := by
    rw [fetchFeed, badSchemeMsg]
    by_cases he : feedUrl = ""
    · rw [if_pos he, if_pos he]
    · rw [if_neg he, if_neg he, if_pos (by simp [hurl])]
  have herase : (bz ++ [b]).erase b = bz := by
    rw [List.erase_append_right _ hnb]
    simp
  have hav : av.dropLast ++ [b] = av := by
    rw [← hgl]
    exact List.dropLast_append_getLast hne
  have hrel : release benv b
      { poolSize := ps, managers := mg, available := av.dropLast,
        busy := bz ++ [b], initialized := true, waitQueue := [] } =
      .ok { poolSize := ps, managers := mg, available := av, busy := bz,
            initialized := true, waitQueue := [] } none := by
    rw [release]
    rw [if_neg (by simp : ¬ ¬ (true = true))]
    rw [if_neg (by simp : ¬ b ∉ (bz ++ [b]))]
    simp only [herase, hav]
  simp only [fetchOp, hacq, hff, hrel]
  simp

/-- Retrying the fetch operation on a bad-scheme URL fails on every
attempt: after f attempts the error still surfaces, the pool state is
restored, the acquisition count has grown by f, and the backoff schedule
was slept. -/
theorem retryGo_fetchOp_bad_scheme (benv : BrowserEnv) (fenv : FetchEnv)
    (timeout : Nat) (feedUrl : String) (s : PoolState) (b : Browser)
    (opts : RetryOptions) (inv : RssError)
    (hinit : s.initialized = true) (hwq : s.waitQueue = [])
    (hlast : s.available.getLast? = some b) (hconn : benv.connected b = true)
    (hnb : b ∉ s.busy) (hurl : isHttpUrl feedUrl = false) :
    ∀ f, 1 ≤ f → ∀ (d : Nat) (tr : FetchTrace),
      retryGo (fetchOp benv fenv timeout feedUrl) opts inv f d (s, tr) =
        (.error (.feedFetch (badSchemeMsg feedUrl) feedUrl),
         (s, { tr with acquired := tr.acquired + f }), f, backoffDelays opts d (f - 1)) := by
  have hop := fetchOp_bad_scheme benv fenv timeout feedUrl s b hinit hwq hlast hconn hnb hurl
  intro f
  induction f using Nat.strong_induction_on with
  | _ f ih =>
    intro hf d tr
    match f with
    | 1 =>
      simp only [retryGo, hop tr, backoffDelays]
    | g + 2 =>
      simp only [retryGo, hop tr]
      rw [ih (g + 1) (by omega) (by omega)
        (min (d * opts.backoffMultiplier) opts.maxDelay)
        { tr with acquired := tr.acquired + 1 }]
      have e1 : tr.acquired + 1 + (g + 1) = tr.acquired + (g + 2) := by omega
      have e3 : backoffDelays opts d (g + 2 - 1) =
          d :: backoffDelays opts (min (d * opts.backoffMultiplier) opts.maxDelay)
            (g + 1 - 1) := by
        simp [backoffDelays]
      simp only [e1, e3]

/-- C1 amended: for a feed URL whose scheme is not http or https, every
retry attempt of fetchAndParse acquires a pool handle and releases it
before the scheme check fails inside fetchFeed, so the call surfaces a
fetch error after retryAttempts attempts with no navigation performed,
retryAttempts handles transiently acquired, and the pool state exactly
as before the call. The claim that no pool handle is ever acquired does
not hold; the state restoration does. -/
theorem fetchAndParse_bad_scheme {ρ : Type} (benv : BrowserEnv) (fenv : FetchEnv)
    (xenv : XmlEnv ρ) (parseOne : ρ → Except RssError RssItem)
    (retryAttempts timeout : Nat) (fetchedAt : Int) (feedUrl : String)
    (s : PoolState) (b : Browser)
    (hinit : s.initialized = true) (hwq : s.waitQueue = [])
    (hlast : s.available.getLast? = some b) (hconn : benv.connected b = true)
    (hnb : b ∉ s.busy) (hurl : isHttpUrl feedUrl = false)
    (hra : 1 ≤ retryAttempts) :
    fetchAndParse benv fenv xenv parseOne retryAttempts timeout fetchedAt feedUrl s =
      (.error (.feedFetch (badSchemeMsg feedUrl) feedUrl), s,
       { acquired := retryAttempts, navigations := 0, fetchOps := retryAttempts }) := by
  rw [fetchAndParse, if_neg (by simp [hinit])]
  rw [executeWithRetry, if_neg (by omega)]
  rw [retryGo_fetchOp_bad_scheme benv fenv timeout feedUrl s b
    rssReaderRetryOptions (.generic "maxAttempts must be at least 1")
    hinit hwq hlast hconn hnb hurl retryAttempts hra
    rssReaderRetryOptions.initialDelay emptyTrace]
  simp [emptyTrace]

/-- Counterexample to C1: on an initialized pool of size 2, fetching the
ftp URL fails with a fetch error and restores the pool, but the call
acquires a pool handle three times (once per retry attempt), refuting
the claim that the failing call never acquires a pool handle. -/
theorem fetchAndParse_bad_scheme_acquires_cex :
    initializePool healthyEnv
      { poolSize := 2, managers := [], available := [], busy := [],
        initialized := false, waitQueue := [] } = (.ok (), readyPool2) ∧
    isHttpUrl "ftp://example.com/feed" = false ∧
    (fetchAndParse healthyEnv noResponseFetchEnv unusedXmlEnv unusedParseOne 3 30000 0
      "ftp://example.com/feed" readyPool2).2.2.acquired = 3 ∧
    ¬ (fetchAndParse healthyEnv noResponseFetchEnv unusedXmlEnv unusedParseOne 3 30000 0
      "ftp://example.com/feed" readyPool2).2.2.acquired = 0 ∧
    (fetchAndParse healthyEnv noResponseFetchEnv unusedXmlEnv unusedParseOne 3 30000 0
      "ftp://example.com/feed" readyPool2).1 =
      .error (.feedFetch "Invalid feed URL: must use HTTP or HTTPS protocol"
        "ftp://example.com/feed") ∧
    (fetchAndParse healthyEnv noResponseFetchEnv unusedXmlEnv unusedParseOne 3 30000 0
      "ftp://example.com/feed" readyPool2).2.1 = readyPool2 := by
  exact ⟨rfl, rfl, rfl, by decide, rfl, rfl⟩

/-- Witness for C1 amended: the theorem applied at the concrete ftp URL
on the initialized size-2 pool. -/
theorem fetchAndParse_bad_scheme_witness :
    fetchAndParse healthyEnv noResponseFetchEnv unusedXmlEnv unusedParseOne 3 30000 0
      "ftp://example.com/feed" readyPool2 =
      (.error (.feedFetch (badSchemeMsg "ftp://example.com/feed") "ftp://example.com/feed"),
       readyPool2, { acquired := 3, navigations := 0, fetchOps := 3 }) :=
  fetchAndParse_bad_scheme healthyEnv noResponseFetchEnv unusedXmlEnv unusedParseOne
    3 30000 0 "ftp://example.com/feed" readyPool2 11 rfl rfl rfl rfl (by decide)
    rfl (by decide)
